import Mathlib

/-!
Verification of the random_data_loader repository's schema-driven value
generation and batched loading pipeline.

Go strings are embedded as `List Char` (`GoStr`); Go's `math/rand/v2`
source is embedded as a stream of naturals (`Rng`), with `rand.IntN`
returning `none` exactly when Go would panic (non-positive argument).
Go `int64` arithmetic that may overflow is made explicit with `wrap64`.
-/

/-- Go strings, embedded as their character lists. -/
abbrev GoStr := List Char

/-- strings.ToLower (ASCII case folding suffices for the type names used). -/
def toLowerGo (s : GoStr) : GoStr := s.map Char.toLower

/-- Whether `pat` is a prefix of `s` (helper for `containsGo`). -/
def isPrefixGo : GoStr → GoStr → Bool
  | [], _ => true
  | _ :: _, [] => false
  | c :: p, d :: s => if c = d then isPrefixGo p s else false

/-- strings.Contains: `pat` occurs as a contiguous substring of `s`. -/
def containsGo : GoStr → GoStr → Bool
  | [], pat => isPrefixGo pat []
  | c :: s, pat => isPrefixGo pat (c :: s) || containsGo s pat

/-- strings.Split with a one-character separator: splits on every occurrence,
empty fields preserved, always at least one field. -/
def splitGo (sep : Char) : GoStr → List GoStr
  | [] => [[]]
  | c :: rest =>
    if c = sep then [] :: splitGo sep rest
    else
      match splitGo sep rest with
      | [] => [[c]]
      | t :: ts => (c :: t) :: ts

/-- strings.Join. -/
def joinGo (sep : GoStr) : List GoStr → GoStr
  | [] => []
  | [x] => x
  | x :: y :: xs => x ++ sep ++ joinGo sep (y :: xs)

/-- strings.TrimSpace: whitespace removed from both ends. -/
def trimSpaceGo (s : GoStr) : GoStr :=
  ((s.dropWhile Char.isWhitespace).reverse.dropWhile Char.isWhitespace).reverse

/-- strings.Trim with the cutset held as a predicate. -/
def trimGo (p : Char → Bool) (s : GoStr) : GoStr :=
  ((s.dropWhile p).reverse.dropWhile p).reverse

/-- strings.LastIndex for a one-character needle. -/
def lastIdxOf (c : Char) (s : GoStr) : Option Nat :=
  match s.reverse.findIdx? (fun d => d == c) with
  | none => none
  | some i => some (s.length - 1 - i)

/-- One decimal digit as a character (helper for `natDec`). -/
def digitChar (d : Nat) : Char :=
  if d = 1 then '1' else if d = 2 then '2' else if d = 3 then '3'
  else if d = 4 then '4' else if d = 5 then '5' else if d = 6 then '6'
  else if d = 7 then '7' else if d = 8 then '8' else if d = 9 then '9' else '0'

/-- Accumulator loop of `natDec`. The first argument is fuel bounding the
number of divisions by ten; `natDec` passes `n` itself, which is enough. -/
def natDecAux : Nat → Nat → GoStr → GoStr
  | 0, _, acc => acc
  | _ + 1, 0, acc => acc
  | fuel + 1, n, acc => natDecAux fuel (n / 10) (digitChar (n % 10) :: acc)

/-- Decimal representation of a natural, modelling strconv.Itoa and
fmt.Sprintf of a non-negative int. -/
def natDec (n : Nat) : GoStr :=
  if n = 0 then ['0'] else natDecAux n n []

/-- One decimal digit's value, `none` for a non-digit (helper for `goAtoi`). -/
def digitVal (c : Char) : Option Nat :=
  if '0' ≤ c ∧ c ≤ '9' then some (c.toNat - 48) else none

/-- Digit-string accumulator of `goAtoi`. -/
def digitsValAux : GoStr → Nat → Option Nat
  | [], acc => some acc
  | c :: rest, acc =>
    match digitVal c with
    | none => none
    | some d => digitsValAux rest (acc * 10 + d)

/-- strconv.Atoi: optional sign then one or more digits, anything else fails.
(Overflow of huge literals is not modelled; the parsed sizes are small.) -/
def goAtoi : GoStr → Option Int
  | [] => none
  | '+' :: rest => if rest = [] then none else (digitsValAux rest 0).map Int.ofNat
  | '-' :: rest => if rest = [] then none else (digitsValAux rest 0).map (fun n => -(Int.ofNat n))
  | s => (digitsValAux s 0).map Int.ofNat

/-- Go `int64` wrap-around: the representative of `x` modulo `2^64`
in `[-2^63, 2^63)`. -/
def wrap64 (x : Int) : Int := (x + 2 ^ 63) % 2 ^ 64 - 2 ^ 63

/-- The source of randomness: a stream of naturals, consumed from the front
(an empty tail reads as zeroes). -/
abbrev Rng := List Nat

/-- rand.IntN: `none` exactly when Go panics (argument not positive),
otherwise a value in `[0, n)` and the advanced stream. -/
def randIntN (n : Int) (r : Rng) : Option (Int × Rng) :=
  if 0 < n then some (((r.headD 0 : Nat) : Int) % n, r.tail) else none

/-- IntGenerator.GenerateValue: `g.Min + int64(rand.IntN(int(g.Max-g.Min+1)))`.
The argument of IntN is computed in `int64`, hence the `wrap64`; on a 64-bit
platform the `int`/`int64` conversions are the identity. -/
def intGenerateValue (min max : Int) (r : Rng) : Option (Int × Rng) :=
  match randIntN (wrap64 (max - min + 1)) r with
  | none => none
  | some (k, r') => some (wrap64 (min + k), r')

/-- EnumGenerator.GenerateValue: `g.Values[rand.IntN(len(g.Values))]`. -/
def enumGeneratorValue (values : List GoStr) (r : Rng) : Option (GoStr × Rng) :=
  match randIntN (values.length : Int) r with
  | none => none
  | some (k, r') => some (values.getD k.toNat [], r')

/-- Fill loop of BinaryGenerator.GenerateValue: appends `k` random bytes. -/
def binAppendLoop : Nat → List Nat → Rng → List Nat × Rng
  | 0, data, r => (data, r)
  | k + 1, data, r => binAppendLoop k (data ++ [r.headD 0 % 256]) r.tail

/-- BinaryGenerator.GenerateValue: `data := make([]byte, 0, g.Length)` has
length zero, and `for range data` ranges over that length-zero slice, so the
fill loop runs `len(data) = 0` times whatever the configured `Length` is. -/
def binaryGeneratorValue (length : Int) (r : Rng) : List Nat × Rng :=
  let data : List Nat := []
  binAppendLoop data.length data r

/-- The 62-character alphanumeric alphabet shared by the string generators. -/
def alphaChars : GoStr :=
  "abcdefghijklmnopqrstuvwxyzABCDEFGHIJKLMNOPQRSTUVWXYZ0123456789".data

/-- The package-level randomString helper: `length` characters drawn
independently via `rand.IntN(62)` (a positive constant bound, so IntN
never fails here and is inlined). -/
def randomStringGo : Nat → Rng → GoStr × Rng
  | 0, r => ([], r)
  | k + 1, r =>
    (alphaChars.getD (r.headD 0 % 62) ' ' :: (randomStringGo k r.tail).1,
      (randomStringGo k r.tail).2)

example : natDec 105 = ['1', '0', '5'] := by decide
example : goAtoi "42".data = some 42 := by decide
example : goAtoi "-7".data = some (-7) := by decide
example : goAtoi "4a".data = none := by decide
example : splitGo ',' "a,b,".data = ["a".data, "b".data, []] := by decide
example : containsGo "bigint unsigned".data "int".data = true := by decide
example : wrap64 (2 ^ 64) = 0 := by decide
example : intGenerateValue 1 1000 [41] = some (42, []) := by decide
example : intGenerateValue (-9223372036854775808) 9223372036854775807 [5] = none := by decide

/-- time.Time values appearing in generator configuration, by their
time.Date components (location is always UTC in the source). -/
structure GoTime where
  year : Int
  month : Int
  day : Int
  hour : Int
  minute : Int
  second : Int
  nsec : Int
deriving DecidableEq, Repr

/-- domain.TableColumn. -/
structure TableColumn where
  name : GoStr
  dataType : GoStr
  nullable : Bool
  defaultVal : GoStr
deriving DecidableEq, Repr

/-- domain.TableIndex. -/
structure TableIndex where
  idxName : GoStr
  columns : List GoStr
  isUnique : Bool
  isPrimary : Bool
deriving DecidableEq, Repr

/-- domain.ForeignKey. -/
structure ForeignKey where
  fkName : GoStr
  columns : List GoStr
  referencedTable : GoStr
  referencedColumns : List GoStr
deriving DecidableEq, Repr

/-- domain.TableStructure. -/
structure TableStructure where
  name : GoStr
  columns : List TableColumn
  indexes : List TableIndex
  foreignKeys : List ForeignKey
deriving DecidableEq, Repr

/-- A generator instance as configured by the selection policy: one
constructor per Go generator type, carrying exactly the constructor
arguments the source passes. The float64 parameters the source passes are
all integral literals, so they are carried as Int. -/
inductive DataGenerator where
  | stringGen (length : Int)
  | intGen (min max : Int)
  | floatGen (min max prec : Int)
  | boolGen
  | dateGen (start stop : GoTime)
  | timestampGen (start stop : GoTime) (withTZ : Bool)
  | enumGen (values : List GoStr)
  | jsonGen (fields depth arrayItems : Int) (format : GoStr)
  | uuidGen
  | ipGen (ipv6 : Bool)
  | bitStringGen (length : Int)
  | binaryGen (length : Int)
  | geometryGen (geomType : GoStr)
  | moneyGen (min max : Int)
  | intervalGen (minHours maxHours : Int)
deriving DecidableEq, Repr

/-- The generator registry `l.Generators`, a Go map from column name to
generator; embedded as an association list where `upsertReg` models a map
write and `lookupReg` a map read. -/
abbrev Registry := List (GoStr × DataGenerator)

/-- Go map read. -/
def lookupReg : Registry → GoStr → Option DataGenerator
  | [], _ => none
  | (k, v) :: rest, name => if k = name then some v else lookupReg rest name

/-- Go map write: overwrites in place, appends when the key is new. -/
def upsertReg (key : GoStr) (g : DataGenerator) : Registry → Registry
  | [] => [(key, g)]
  | (k, v) :: rest => if k = key then (key, g) :: rest else (k, v) :: upsertReg key g rest

/-- The auto-increment check of SetDefaultGenerators: some index is primary,
has exactly this column as its only member, and the lower-cased type
contains "int". -/
def isPrimaryAutoIncrement (ts : TableStructure) (dataType : GoStr) (name : GoStr) : Bool :=
  ts.indexes.any fun idx =>
    idx.isPrimary && decide (idx.columns = [name]) && containsGo dataType "int".data

/-- The foreign-key check of SetDefaultGenerators: the column name appears
in some foreign key's local column list. -/
def isForeignKeyCol (ts : TableStructure) (name : GoStr) : Bool :=
  ts.foreignKeys.any fun fk => fk.columns.any fun col => decide (col = name)

/-- The text between the first "(" of `dt` and the first ")" at or after it:
`dataType[start+1 : start+end]` in the source. `none` when either index
lookup fails. -/
def parenArg (dt : GoStr) : Option GoStr :=
  match dt.findIdx? (fun c => c == '(') with
  | none => none
  | some start =>
    match (dt.drop start).findIdx? (fun c => c == ')') with
    | none => none
    | some endOff => some ((dt.take (start + endOff)).drop (start + 1))

/-- Length for char/varchar and bit/varbit: parsed parenthesized size capped
at `cap`, default `dflt` when absent or unparsable. -/
def parenLength (dt : GoStr) (cap dflt : Int) : Int :=
  match parenArg dt with
  | none => dflt
  | some inner =>
    match goAtoi inner with
    | none => dflt
    | some size => min size cap

/-- Decimal places for double/decimal/numeric: the second comma-separated
number inside the parentheses, default 2. -/
def decimalPrecision (dt : GoStr) : Int :=
  match parenArg dt with
  | none => 2
  | some inner =>
    let parts := splitGo ',' inner
    if parts.length > 1 then
      match goAtoi (trimSpaceGo (parts.getD 1 [])) with
      | none => 2
      | some p => p
    else 2

/-- The fixed fallback of parseEnumValues. -/
def enumFallback : List GoStr := ["enum_value1".data, "enum_value2".data]

/-- The value-extraction part of parseEnumValues: content between the first
"(" and the last ")", split on commas, each piece stripped of whitespace and
quotes, empties dropped. Empty when the parentheses are missing or ordered
wrongly. -/
def extractEnumValues (dt : GoStr) : List GoStr :=
  match dt.findIdx? (fun c => c == '('), lastIdxOf ')' dt with
  | some start, some stop =>
    if start < stop then
      let valuesString := (dt.take stop).drop (start + 1)
      let rawValues := splitGo ',' valuesString
      (rawValues.map fun v => trimGo (fun c => c == '\'' || c == '"') (trimSpaceGo v)).filter
        fun v => !(v = [])
    else []
  | _, _ => []

/-- parseEnumValues: the extracted values, or the fixed two-value fallback
when none were extracted. -/
def parseEnumValues (dt : GoStr) : List GoStr :=
  let values := extractEnumValues dt
  if values = [] then enumFallback else values

/-- The per-column body of SetDefaultGenerators: the generator the policy
binds for this column, or `none` when the column is skipped (auto-increment
primary key, foreign key of unmatched type, or the bare "time" case whose
type string also contains "timestamp"). -/
def selectGenerator (dbType : GoStr) (ts : TableStructure) (c : TableColumn) :
    Option DataGenerator :=
  let dataType := toLowerGo c.dataType
  if isPrimaryAutoIncrement ts dataType c.name then none
  else if isForeignKeyCol ts c.name then
    if containsGo dataType "int".data then some (.intGen 1 1000)
    else if containsGo dataType "char".data || containsGo dataType "text".data then
      some (.stringGen 8)
    else none
  else
    let tok := (splitGo ' ' dataType).headD []
    if tok = "char".data ∨ tok = "varchar".data then
      some (.stringGen (parenLength dataType 100 10))
    else if tok = "text".data then
      if containsGo dataType "tiny".data then some (.stringGen 50)
      else if containsGo dataType "medium".data then some (.stringGen 200)
      else if containsGo dataType "long".data then some (.stringGen 500)
      else some (.stringGen 100)
    else if tok = "tinyint".data then
      if containsGo dataType "unsigned".data then some (.intGen 0 255)
      else some (.intGen (-128) 127)
    else if tok = "smallint".data then
      if containsGo dataType "unsigned".data then some (.intGen 0 65535)
      else some (.intGen (-32768) 32767)
    else if tok = "mediumint".data then
      if containsGo dataType "unsigned".data then some (.intGen 0 16777215)
      else some (.intGen (-8388608) 8388607)
    else if tok = "int".data ∨ tok = "integer".data then
      if containsGo dataType "unsigned".data then some (.intGen 0 2147483647)
      else some (.intGen (-2147483648) 2147483647)
    else if tok = "bigint".data then
      if containsGo dataType "unsigned".data then some (.intGen 0 9223372036854775807)
      else some (.intGen (-9223372036854775808) 9223372036854775807)
    else if tok = "float".data ∨ tok = "real".data then
      some (.floatGen (-1000) 1000 2)
    else if tok = "double".data ∨ tok = "decimal".data ∨ tok = "numeric".data then
      some (.floatGen (-10000) 10000 (decimalPrecision dataType))
    else if tok = "bool".data ∨ tok = "boolean".data then
      some .boolGen
    else if tok = "date".data then
      some (.dateGen ⟨2000, 1, 1, 0, 0, 0, 0⟩ ⟨2023, 12, 31, 0, 0, 0, 0⟩)
    else if tok = "time".data then
      if !containsGo dataType "timestamp".data then some (.stringGen 8) else none
    else if tok = "timestamp".data ∨ tok = "datetime".data then
      some (.timestampGen ⟨2000, 1, 1, 0, 0, 0, 0⟩ ⟨2023, 12, 31, 23, 59, 59, 0⟩
        (containsGo dataType "with time zone".data || containsGo dataType "timestamptz".data))
    else if tok = "enum".data then
      some (.enumGen (parseEnumValues c.dataType))
    else if tok = "set".data then
      some (.enumGen (parseEnumValues c.dataType))
    else if tok = "json".data ∨ tok = "jsonb".data then
      some (.jsonGen 3 2 3 dbType)
    else if tok = "uuid".data then
      some .uuidGen
    else if tok = "inet".data ∨ tok = "cidr".data then
      some (.ipGen false)
    else if tok = "macaddr".data then
      some (.stringGen 17)
    else if tok = "bit".data ∨ tok = "varbit".data then
      some (.bitStringGen (parenLength dataType 64 8))
    else if tok = "blob".data ∨ tok = "binary".data ∨ tok = "bytea".data then
      if containsGo dataType "tiny".data then some (.binaryGen 100)
      else if containsGo dataType "medium".data then some (.binaryGen 1000)
      else if containsGo dataType "long".data then some (.binaryGen 10000)
      else some (.binaryGen 500)
    else if tok = "point".data ∨ tok = "geometry".data then
      if containsGo dataType "linestring".data then some (.geometryGen "linestring".data)
      else if containsGo dataType "polygon".data then some (.geometryGen "polygon".data)
      else some (.geometryGen "point".data)
    else if tok = "money".data then
      some (.moneyGen 0 10000)
    else if tok = "interval".data then
      some (.intervalGen 0 100)
    else
      some (.stringGen 10)

/-- One iteration of SetDefaultGenerators' column loop: a map write when the
policy selects a generator, no change when the column is skipped. -/
def processColumn (dbType : GoStr) (ts : TableStructure) (reg : Registry)
    (c : TableColumn) : Registry :=
  match selectGenerator dbType ts c with
  | none => reg
  | some g => upsertReg c.name g reg

/-- SetDefaultGenerators run over a starting registry (the Go method mutates
`l.Generators` in place and always returns a nil error). -/
def setDefaultGenerators (dbType : GoStr) (ts : TableStructure) (reg : Registry) : Registry :=
  ts.columns.foldl (processColumn dbType ts) reg

/-- The columns LoadData keeps for the insert statement: those with a bound
generator, in table column order. -/
def eligibleColumns (reg : Registry) (cols : List TableColumn) : List TableColumn :=
  cols.filter fun c => (lookupReg reg c.name).isSome

/-- The insert statement's column-name list. -/
def insertColumnNames (reg : Registry) (cols : List TableColumn) : List GoStr :=
  (eligibleColumns reg cols).map (·.name)

/-- Replace the first "?" of `q` by `rep`: strings.Replace(q, "?", rep, 1)
for a one-character needle. -/
def replaceFirstQ : GoStr → GoStr → GoStr
  | [], _ => []
  | c :: rest, rep => if c = '?' then rep ++ rest else c :: replaceFirstQ rest rep

/-- LoadData's PostgreSQL rewrite loop: `count` iterations, the `j`-th
replacing the first remaining "?" by `"$j"`, `j` counting up from `i`. -/
def pgRewriteLoop (q : GoStr) (i : Nat) : Nat → GoStr
  | 0 => q
  | k + 1 => pgRewriteLoop (replaceFirstQ q ('$' :: natDec i)) (i + 1) k

/-- The insert statement LoadData builds: column names and one "?" per
eligible column joined into the INSERT text, then every "?" of the whole
query text rewritten to `$1, $2, ...` when the dialect is "postgres". -/
def buildInsertQuery (dbType : GoStr) (ts : TableStructure) (reg : Registry) : GoStr :=
  let columnNames := insertColumnNames reg ts.columns
  let placeholders := columnNames.map fun _ => "?".data
  let query := "INSERT INTO ".data ++ ts.name ++ " (".data ++
    joinGo ", ".data columnNames ++ ") VALUES (".data ++
    joinGo ", ".data placeholders ++ ")".data
  if dbType = "postgres".data then pgRewriteLoop query 1 placeholders.length else query

/-- Loop of generateRows. Row contents are abstracted to their count: each
iteration draws one value per bound column and then, in a select, returns at
once when the context is already done (`cancelAt ≤` rows published so far,
the iteration index) — without closing the channel — and publishes
otherwise. When all `numRows` iterations publish, the channel is closed.
Result: (rows published, whether the channel was closed). -/
def generateRowsLoop (cancelAt : Nat) : Nat → Nat → Nat × Bool
  | 0, published => (published, true)
  | n + 1, published =>
    if cancelAt ≤ published then (published, false)
    else generateRowsLoop cancelAt n (published + 1)

/-- The generateRows producer: `numRows` iterations, cancellation first
observed at iteration `cancelAt` (a context stays done once done). -/
def generateRowsModel (numRows cancelAt : Nat) : Nat × Bool :=
  generateRowsLoop cancelAt numRows 0

/-- Loop of Load for a single worker consuming the whole stream with no
cancellation and no database errors (the run-to-completion case): `rows`
still to consume, `count` statements executed since the last commit, and the
running (executions, commits) totals. After the channel is exhausted the
final `tx.Commit()` is performed unconditionally — the `if count > 0` guard
around it is commented out in the source. -/
def loadWorkerLoop (batchSize : Nat) : List Unit → Nat → Nat → Nat → Nat × Nat
  | [], _, execs, commits => (execs, commits + 1)
  | _ :: rows, count, execs, commits =>
    if batchSize ≤ count + 1 then loadWorkerLoop batchSize rows 0 (execs + 1) (commits + 1)
    else loadWorkerLoop batchSize rows (count + 1) (execs + 1) commits

/-- A full single-worker Load run over `rows`: (statement executions,
commit invocations). -/
def loadWorkerRun (batchSize : Nat) (rows : List Unit) : Nat × Nat :=
  loadWorkerLoop batchSize rows 0 0 0

example : loadWorkerRun 10 (List.replicate 25 ()) = (25, 3) := by decide
example : generateRowsModel 5 2 = (2, false) := by decide
example : generateRowsModel 5 7 = (5, true) := by decide
example :
    buildInsertQuery "postgres".data
      ⟨"t".data, [⟨"a".data, "varchar(10)".data, false, []⟩], [], []⟩
      [("a".data, .stringGen 10)] =
    "INSERT INTO t (a) VALUES ($1)".data := by decide

/-- JSONGenerator configuration (NewJSONGenerator's arguments). -/
structure JSONGeneratorCfg where
  fields : Int
  depth : Int
  arrayItems : Int
  format : GoStr
deriving DecidableEq, Repr

/-- The leaf emitted by generateObject once the depth budget is exhausted:
`"leaf_value_` + randomString(5) + `"` (a quoted JSON string). -/
def jsonLeaf (r : Rng) : GoStr × Rng :=
  ("\"leaf_value_".data ++ (randomStringGo 5 r).1 ++ "\"".data, (randomStringGo 5 r).2)

/-- The array branch's element loop inside generateObject. `recur` is the
depth-increased generateObject call; `canRecur` is `depth < g.Depth-1`,
short-circuiting `rand.IntN(2)` away when false. -/
def jsonArrayLoop (recur : Rng → Option (GoStr × Rng)) (canRecur : Bool) :
    Nat → Rng → Option (List GoStr × Rng)
  | 0, r => some ([], r)
  | k + 1, r => do
    let (elem, r1) ←
      if canRecur then do
        let (coin, ra) ← randIntN 2 r
        if coin = 0 then recur ra
        else
          pure ("\"item_".data ++ (randomStringGo 3 ra).1 ++ "\"".data,
            (randomStringGo 3 ra).2)
      else
        pure ("\"item_".data ++ (randomStringGo 3 r).1 ++ "\"".data,
          (randomStringGo 3 r).2)
    let (rest, r2) ← jsonArrayLoop recur canRecur k r1
    pure (elem :: rest, r2)

/-- One field's value inside generateObject: the four-way switch on
`rand.IntN(4)`: string, number, nested object (leaf when too deep), or
array of `rand.IntN(g.ArrayItems)+1` items. -/
def jsonFieldValue (recur : Rng → Option (GoStr × Rng)) (canRecur : Bool)
    (cfg : JSONGeneratorCfg) (r : Rng) : Option (GoStr × Rng) := do
  let (choice, r0) ← randIntN 4 r
  if choice = 0 then
    pure ("\"value_".data ++ (randomStringGo 5 r0).1 ++ "\"".data,
      (randomStringGo 5 r0).2)
  else if choice = 1 then
    let (numv, r1) ← randIntN 1000 r0
    pure (natDec numv.toNat, r1)
  else if choice = 2 then
    if canRecur then recur r0
    else
      pure ("\"leaf_value_".data ++ (randomStringGo 5 r0).1 ++ "\"".data,
        (randomStringGo 5 r0).2)
  else
    let (ic, r1) ← randIntN cfg.arrayItems r0
    let (elems, r2) ← jsonArrayLoop recur canRecur (ic + 1).toNat r1
    pure ('[' :: joinGo ", ".data elems ++ [']'], r2)

/-- The field loop of generateObject: each iteration draws a key
`"key_" + randomString(3)` and then a value, accumulating the already
comma-joined `"key": value` parts. -/
def jsonFieldsLoop (recur : Rng → Option (GoStr × Rng)) (canRecur : Bool)
    (cfg : JSONGeneratorCfg) : Nat → Rng → Option (List GoStr × Rng)
  | 0, r => some ([], r)
  | k + 1, r => do
    let key := "key_".data ++ (randomStringGo 3 r).1
    let (v, r1) ← jsonFieldValue recur canRecur cfg (randomStringGo 3 r).2
    let part := '"' :: key ++ "\": ".data ++ v
    let (rest, r2) ← jsonFieldsLoop recur canRecur cfg k r1
    pure (part :: rest, r2)

/-- JSONGenerator.generateObject by its remaining depth budget
`b = (g.Depth - depth).toNat`: budget 0 is `depth >= g.Depth` (the leaf
case); at budget `b+1` the recursive calls run at budget `b`, and
`canRecur = (1 ≤ b)` is the source's `depth < g.Depth-1` guard. -/
def generateObjectB (cfg : JSONGeneratorCfg) : Nat → Rng → Option (GoStr × Rng)
  | 0, r => some (jsonLeaf r)
  | b + 1, r => do
    let (fc, r0) ← randIntN cfg.fields r
    let (parts, r1) ←
      jsonFieldsLoop (fun rr => generateObjectB cfg b rr) (decide (1 ≤ b)) cfg
        (fc + 1).toNat r0
    pure ('{' :: joinGo ", ".data parts ++ ['}'], r1)

/-- JSONGenerator.generateObject at depth `depth`. -/
def generateObject (cfg : JSONGeneratorCfg) (depth : Int) (r : Rng) :
    Option (GoStr × Rng) :=
  generateObjectB cfg (cfg.depth - depth).toNat r

example : (generateObject ⟨3, 2, 3, "mysql".data⟩ 2 [0, 1, 2, 3, 4]).isSome := by decide
example : (generateObject ⟨3, 2, 3, "mysql".data⟩ 0 [0, 1, 2, 3, 4, 5, 6, 7]).isSome := by decide
example : (generateObject ⟨0, 2, 3, "mysql".data⟩ 0 [0, 1]).isSome = false := by decide

/-- The last generator SetDefaultGenerators writes for `name` while
processing `cols` (later columns win, matching the map overwrites). -/
def lastBind (dbType : GoStr) (ts : TableStructure) (name : GoStr) :
    List TableColumn → Option DataGenerator
  | [] => none
  | c :: cols =>
    match lastBind dbType ts name cols with
    | some g => some g
    | none =>
      match selectGenerator dbType ts c with
      | some g => if c.name = name then some g else none
      | none => none

theorem lookupReg_upsert (key : GoStr) (g : DataGenerator) (reg : Registry) (name : GoStr) :
    lookupReg (upsertReg key g reg) name = if key = name then some g else lookupReg reg name := by
  induction reg with
  | nil => simp [upsertReg, lookupReg]
  | cons kv rest ih =>
    obtain ⟨k, v⟩ := kv
    by_cases hk : k = key
    · subst hk
      by_cases hn : k = name <;> simp [upsertReg, lookupReg, hn]
    · by_cases hn : k = name
      · subst hn
        have hkey : ¬key = k := fun h => hk h.symm
        simp [upsertReg, hk, lookupReg, hkey]
      · simp [upsertReg, hk, lookupReg, hn, ih]

theorem lookupReg_foldl (dbType : GoStr) (ts : TableStructure) (name : GoStr)
    (cols : List TableColumn) :
    ∀ reg : Registry,
      lookupReg (cols.foldl (processColumn dbType ts) reg) name =
        match lastBind dbType ts name cols with
        | some g => some g
        | none => lookupReg reg name := by
  induction cols with
  | nil => intro reg; simp [lastBind]
  | cons c cols ih =>
    intro reg
    simp only [List.foldl_cons, lastBind]
    rw [ih]
    cases hlb : lastBind dbType ts name cols with
    | some g => simp
    | none =>
      simp only [processColumn]
      cases hsel : selectGenerator dbType ts c with
      | none => simp
      | some g =>
        rw [lookupReg_upsert]
        by_cases h : c.name = name <;> simp [h]

theorem lastBind_eq_none (dbType : GoStr) (ts : TableStructure) (name : GoStr)
    (cols : List TableColumn) (h : name ∉ cols.map (·.name)) :
    lastBind dbType ts name cols = none := by
  induction cols with
  | nil => rfl
  | cons c cols ih =>
    simp only [List.map_cons, List.mem_cons, not_or] at h
    obtain ⟨hne, hnm⟩ := h
    simp only [lastBind, ih hnm]
    cases hsel : selectGenerator dbType ts c with
    | none => rfl
    | some g =>
      have : ¬c.name = name := fun hc => hne (hc ▸ rfl)
      simp [this]

theorem lastBind_unique (dbType : GoStr) (ts : TableStructure) (col : TableColumn)
    (cols : List TableColumn) (hnd : (cols.map (·.name)).Nodup) (hmem : col ∈ cols) :
    lastBind dbType ts col.name cols = selectGenerator dbType ts col := by
  induction cols with
  | nil => cases hmem
  | cons c cols ih =>
    simp only [List.map_cons, List.nodup_cons] at hnd
    obtain ⟨hcn, hnd'⟩ := hnd
    rcases List.mem_cons.mp hmem with hcol | hcol
    · subst hcol
      have hnone : lastBind dbType ts col.name cols = none := by
        apply lastBind_eq_none
        exact hcn
      simp only [lastBind, hnone]
      cases hsel : selectGenerator dbType ts col with
      | none => rfl
      | some g => simp
    · have hne : ¬c.name = col.name := by
        intro hc
        exact hcn (hc ▸ List.mem_map_of_mem (·.name) hcol)
      simp only [lastBind, ih hnd' hcol]
      cases hsel : selectGenerator dbType ts col with
      | some g => rfl
      | none =>
        cases hselc : selectGenerator dbType ts c with
        | none => rfl
        | some g => simp [hne]

/-- Under distinct column names, what SetDefaultGenerators binds for a
column is exactly what the per-column policy selects for it. -/
theorem lookup_setDefaultGenerators (dbType : GoStr) (ts : TableStructure)
    (col : TableColumn) (hnd : (ts.columns.map (·.name)).Nodup)
    (hmem : col ∈ ts.columns) :
    lookupReg (setDefaultGenerators dbType ts []) col.name =
      selectGenerator dbType ts col := by
  unfold setDefaultGenerators
  rw [lookupReg_foldl, lastBind_unique dbType ts col ts.columns hnd hmem]
  cases hsel : selectGenerator dbType ts col <;> rfl

/-- A table with one signed bigint column (no indexes, no foreign keys). -/
def bigintTable : TableStructure :=
  ⟨"t".data, [⟨"n".data, "bigint".data, false, []⟩], [], []⟩

/-- A table with one blob column with no size hint. -/
def blobTable : TableStructure :=
  ⟨"t".data, [⟨"b".data, "blob".data, false, []⟩], [], []⟩

/-- C1 (code bug): the selection policy binds a signed `bigint` column to
IntGenerator(-9223372036854775808, 9223372036854775807), but GenerateValue
on that generator fails for every random source — `g.Max - g.Min + 1`
computed in int64 wraps to 0 and `rand.IntN(0)` panics — and the unsigned
bigint generator IntGenerator(0, 9223372036854775807) likewise wraps to
-2^63; so no bigint column ever receives a value in its declared range,
refuting the claim's totality over every family/signedness combination. -/
theorem intGenerator_bigint_generate_fails :
    lookupReg (setDefaultGenerators "mysql".data bigintTable []) "n".data =
      some (.intGen (-9223372036854775808) 9223372036854775807) ∧
    (∀ r : Rng, intGenerateValue (-9223372036854775808) 9223372036854775807 r = none) ∧
    (∀ r : Rng, intGenerateValue 0 9223372036854775807 r = none) := by
  refine ⟨by decide, fun r => ?_, fun r => ?_⟩ <;> rfl

/-- Stepping invariant of the producer loop under early cancellation. -/
theorem generateRowsLoop_cancel (cancelAt : Nat) :
    ∀ n published, published ≤ cancelAt → cancelAt < published + n →
      generateRowsLoop cancelAt n published = (cancelAt, false) := by
  intro n
  induction n with
  | zero => intro published h1 h2; omega
  | succ n ih =>
    intro published h1 h2
    by_cases hc : cancelAt ≤ published
    · have : published = cancelAt := Nat.le_antisymm h1 hc
      simp [generateRowsLoop, hc, this]
    · have h1' : published + 1 ≤ cancelAt := by omega
      simp only [generateRowsLoop, if_neg hc]
      exact ih (published + 1) h1' (by omega)

/-- C2 (code bug): if cancellation is observed at iteration
`cancelAt < numRows`, the producer returns with exactly `cancelAt` rows
published and the channel NOT closed — `generateRows`' cancellation branch
is a bare `return` with no `close(ch)` — contradicting the claim that the
channel is closed (and leaving workers blocked on the open empty channel,
so LoadData's join cannot be relied on to return). -/
theorem generateRows_cancel_leaves_channel_unclosed (numRows cancelAt : Nat)
    (h : cancelAt < numRows) :
    generateRowsModel numRows cancelAt = (cancelAt, false) :=
  generateRowsLoop_cancel cancelAt numRows 0 (Nat.zero_le _) (by omega)

/-- Witness: cancellation before the first publish of a one-row load leaves
the channel unclosed. -/
theorem generateRows_cancel_witness :
    0 < 1 ∧ generateRowsModel 1 0 = (0, false) :=
  ⟨by decide, generateRows_cancel_leaves_channel_unclosed 1 0 (by decide)⟩

/-- C3 counterexample: a single worker consuming 100 rows with batch size 10
executes 100 inserts but makes 11 commit invocations, not ceil(100/10) = 10:
the final flush `tx.Commit()` runs unconditionally (its `if count > 0` guard
is commented out), committing the empty 11th transaction. -/
theorem load_commits_counterexample :
    ¬((loadWorkerRun 10 (List.replicate 100 ())).1 = 100 ∧
      (loadWorkerRun 10 (List.replicate 100 ())).2 = 10) := by decide

/-- C3 amended: the run executes the insert exactly 100 times and invokes
commit exactly 11 times — ten batch commits plus the unconditional final
commit of the then-empty transaction. -/
theorem load_100_rows_batch10_commits :
    loadWorkerRun 10 (List.replicate 100 ()) = (100, 11) := by decide

/-- C8: BinaryGenerator.GenerateValue returns the empty byte slice (length
0) for every configured length and random source, because its fill loop
ranges over `make([]byte, 0, g.Length)`, a slice of length zero; in
particular for the 100/1000/10000/500 lengths the policy assigns (shown
here for the default blob binding, length 500). -/
theorem binary_generator_empty :
    (∀ (length : Int) (r : Rng), binaryGeneratorValue length r = ([], r)) ∧
    lookupReg (setDefaultGenerators "mysql".data blobTable []) "b".data =
      some (.binaryGen 500) := by
  exact ⟨fun length r => rfl, by decide⟩

/-- C10: generator selection is deterministic and idempotent — two runs of
SetDefaultGenerators from an empty registry give the same column-to-
generator mapping, and re-running it over the registry it produced changes
no binding (each column's last write is the same generator configuration,
selected purely from the TableStructure). -/
theorem set_default_generators_idempotent (dbType : GoStr) (ts : TableStructure)
    (name : GoStr) :
    lookupReg (setDefaultGenerators dbType ts []) name =
      lookupReg (setDefaultGenerators dbType ts []) name ∧
    lookupReg (setDefaultGenerators dbType ts (setDefaultGenerators dbType ts [])) name =
      lookupReg (setDefaultGenerators dbType ts []) name := by
  refine ⟨rfl, ?_⟩
  have h1 := lookupReg_foldl dbType ts name ts.columns []
  have h2 := lookupReg_foldl dbType ts name ts.columns
    (ts.columns.foldl (processColumn dbType ts) [])
  unfold setDefaultGenerators
  cases hlb : lastBind dbType ts name ts.columns with
  | none => rw [h2, hlb]
  | some g =>
    rw [h2, hlb, h1, hlb]

/-- The integer type-family tokens of the selection policy's dispatch. -/
def integerFamilies : List GoStr :=
  ["tinyint".data, "smallint".data, "mediumint".data, "int".data, "integer".data,
    "bigint".data]

theorem isPrefixGo_append (pat : GoStr) :
    ∀ (s t : GoStr), isPrefixGo pat s = true → isPrefixGo pat (s ++ t) = true := by
  induction pat with
  | nil => intro s t _; rfl
  | cons c p ih =>
    intro s t h
    cases s with
    | nil => simp [isPrefixGo] at h
    | cons d s' =>
      simp only [List.cons_append, isPrefixGo] at h ⊢
      by_cases hcd : c = d
      · rw [if_pos hcd] at h ⊢
        exact ih s' t h
      · rw [if_neg hcd] at h
        simp at h

theorem containsGo_nil_right : ∀ s : GoStr, containsGo s [] = true := by
  intro s
  cases s with
  | nil => rfl
  | cons c s' => simp [containsGo, isPrefixGo]

theorem containsGo_append_left (a b pat : GoStr) (h : containsGo a pat = true) :
    containsGo (a ++ b) pat = true := by
  induction a with
  | nil =>
    cases pat with
    | nil => exact containsGo_nil_right b
    | cons c p => simp [containsGo, isPrefixGo] at h
  | cons c a' ih =>
    simp only [containsGo, Bool.or_eq_true] at h
    rcases h with h | h
    · simp only [List.cons_append, containsGo, Bool.or_eq_true]
      exact Or.inl (isPrefixGo_append pat _ b h)
    · simp only [List.cons_append, containsGo, Bool.or_eq_true]
      exact Or.inr (ih h)

theorem splitGo_headD_prefix (sep : Char) :
    ∀ s : GoStr, ∃ rest, s = (splitGo sep s).headD [] ++ rest := by
  intro s
  induction s with
  | nil => exact ⟨[], rfl⟩
  | cons c s' ih =>
    by_cases hc : c = sep
    · exact ⟨c :: s', by simp [splitGo, hc]⟩
    · obtain ⟨rest, hrest⟩ := ih
      cases hsp : splitGo sep s' with
      | nil => exact ⟨s', by simp [splitGo, hc, hsp]⟩
      | cons t ts =>
        refine ⟨rest, ?_⟩
        simp only [splitGo, if_neg hc, hsp, List.headD_cons]
        rw [hsp, List.headD_cons] at hrest
        simp [hrest]

theorem integerFamilies_contains_int (tok : GoStr) (h : tok ∈ integerFamilies) :
    containsGo tok "int".data = true := by
  fin_cases h <;> decide

theorem integer_token_contains_int (dt : GoStr)
    (h : (splitGo ' ' dt).headD [] ∈ integerFamilies) :
    containsGo dt "int".data = true := by
  obtain ⟨rest, hrest⟩ := splitGo_headD_prefix ' ' dt
  rw [hrest]
  exact containsGo_append_left _ _ _ (integerFamilies_contains_int _ h)

/-- C4: a column that is the sole member column of a primary-key index and
whose declared type is an integer family (first whitespace token of the
lower-cased type is one of tinyint/smallint/mediumint/int/integer/bigint)
receives no binding from SetDefaultGenerators, and its name is absent from
the insert statement's column list. Distinct column names are assumed, as in
any real table. -/
theorem autoincrement_pk_skipped (dbType : GoStr) (ts : TableStructure)
    (col : TableColumn) (hnd : (ts.columns.map (·.name)).Nodup)
    (hmem : col ∈ ts.columns)
    (hpk : ∃ idx ∈ ts.indexes, idx.isPrimary = true ∧ idx.columns = [col.name])
    (hfam : (splitGo ' ' (toLowerGo col.dataType)).headD [] ∈ integerFamilies) :
    lookupReg (setDefaultGenerators dbType ts []) col.name = none ∧
    col.name ∉ insertColumnNames (setDefaultGenerators dbType ts []) ts.columns := by
  have hcontains : containsGo (toLowerGo col.dataType) "int".data = true :=
    integer_token_contains_int _ hfam
  have hpai : isPrimaryAutoIncrement ts (toLowerGo col.dataType) col.name = true := by
    obtain ⟨idx, hidx, hprim, hcols⟩ := hpk
    unfold isPrimaryAutoIncrement
    rw [List.any_eq_true]
    exact ⟨idx, hidx, by simp [hprim, hcols, hcontains]⟩
  have hsel : selectGenerator dbType ts col = none := by
    simp [selectGenerator, hpai]
  have hlook : lookupReg (setDefaultGenerators dbType ts []) col.name = none := by
    rw [lookup_setDefaultGenerators dbType ts col hnd hmem, hsel]
  refine ⟨hlook, ?_⟩
  intro habs
  unfold insertColumnNames eligibleColumns at habs
  rw [List.mem_map] at habs
  obtain ⟨c', hc', hname⟩ := habs
  rw [List.mem_filter] at hc'
  have hsome := hc'.2
  rw [hname, hlook] at hsome
  simp at hsome

/-- A table whose integer `id` column is the sole member of the primary-key
index (the auto-increment shape), next to one ordinary column. -/
def autoincTable : TableStructure :=
  ⟨"t".data, [⟨"id".data, "int".data, false, []⟩, ⟨"v".data, "date".data, false, []⟩],
    [⟨"pk".data, ["id".data], true, true⟩], []⟩

/-- Witness for C4 at a concrete table. -/
theorem autoincrement_pk_skipped_witness :
    lookupReg (setDefaultGenerators "mysql".data autoincTable []) "id".data = none ∧
    "id".data ∉ insertColumnNames (setDefaultGenerators "mysql".data autoincTable [])
      autoincTable.columns :=
  autoincrement_pk_skipped "mysql".data autoincTable ⟨"id".data, "int".data, false, []⟩
    (by decide) (by decide) ⟨⟨"pk".data, ["id".data], true, true⟩, by decide, rfl, rfl⟩
    (by decide)

theorem wrap64_eq_self (x : Int) (h1 : -(2 ^ 63) ≤ x) (h2 : x < 2 ^ 63) :
    wrap64 x = x := by
  unfold wrap64
  have h3 : 0 ≤ x + 2 ^ 63 := by omega
  have h4 : x + 2 ^ 63 < 2 ^ 64 := by omega
  rw [Int.emod_eq_of_lt h3 h4]
  omega

/-- IntGenerator stays within its bounds whenever the span calculation does
not overflow int64 (every policy-produced range except the bigint ones). -/
theorem intGenerateValue_range (min max : Int) (r : Rng)
    (hmin : -(2 ^ 63) ≤ min) (hle : min ≤ max) (hmax : max < 2 ^ 63)
    (hspan : max - min + 1 < 2 ^ 63) :
    ∃ v r', intGenerateValue min max r = some (v, r') ∧ min ≤ v ∧ v ≤ max := by
  have hpos : (0 : Int) < max - min + 1 := by omega
  have hn : wrap64 (max - min + 1) = max - min + 1 := wrap64_eq_self _ (by omega) hspan
  have hk0 : 0 ≤ ((r.headD 0 : Nat) : Int) % (max - min + 1) :=
    Int.emod_nonneg _ (by omega)
  have hklt : ((r.headD 0 : Nat) : Int) % (max - min + 1) < max - min + 1 :=
    Int.emod_lt_of_pos _ hpos
  have hv : wrap64 (min + ((r.headD 0 : Nat) : Int) % (max - min + 1)) =
      min + ((r.headD 0 : Nat) : Int) % (max - min + 1) :=
    wrap64_eq_self _ (by omega) (by omega)
  refine ⟨min + ((r.headD 0 : Nat) : Int) % (max - min + 1), r.tail, ?_, by omega, by omega⟩
  simp only [intGenerateValue, hn, randIntN, if_pos hpos]
  rw [hv]

/-- C6 amended: a foreign-key column not skipped by the auto-increment rule
is bound to IntGenerator(1, 1000) when its lower-cased type contains "int"
(and that generator's values always lie in [1, 1000]); to StringGenerator(8)
when the type instead contains "char" or "text"; and — contrary to the
claim's "every column named in some foreign key receives a binding" — to
nothing at all otherwise. -/
theorem foreign_key_bindings (dbType : GoStr) (ts : TableStructure)
    (col : TableColumn) (hnd : (ts.columns.map (·.name)).Nodup)
    (hmem : col ∈ ts.columns)
    (hfk : ∃ fk ∈ ts.foreignKeys, col.name ∈ fk.columns)
    (hnotpk : isPrimaryAutoIncrement ts (toLowerGo col.dataType) col.name = false) :
    (containsGo (toLowerGo col.dataType) "int".data = true →
      lookupReg (setDefaultGenerators dbType ts []) col.name = some (.intGen 1 1000) ∧
      ∀ r : Rng, ∃ v r', intGenerateValue 1 1000 r = some (v, r') ∧ 1 ≤ v ∧ v ≤ 1000) ∧
    (containsGo (toLowerGo col.dataType) "int".data = false →
      (containsGo (toLowerGo col.dataType) "char".data = true ∨
        containsGo (toLowerGo col.dataType) "text".data = true) →
      lookupReg (setDefaultGenerators dbType ts []) col.name = some (.stringGen 8)) ∧
    (containsGo (toLowerGo col.dataType) "int".data = false →
      containsGo (toLowerGo col.dataType) "char".data = false →
      containsGo (toLowerGo col.dataType) "text".data = false →
      lookupReg (setDefaultGenerators dbType ts []) col.name = none) := by
  have hfkb : isForeignKeyCol ts col.name = true := by
    obtain ⟨fk, hfkmem, hcol⟩ := hfk
    unfold isForeignKeyCol
    rw [List.any_eq_true]
    refine ⟨fk, hfkmem, ?_⟩
    rw [List.any_eq_true]
    exact ⟨col.name, hcol, by simp⟩
  have hlook := lookup_setDefaultGenerators dbType ts col hnd hmem
  refine ⟨fun hint => ?_, fun hint hct => ?_, fun hint hchar htext => ?_⟩
  · refine ⟨?_, fun r => intGenerateValue_range 1 1000 r (by norm_num) (by norm_num)
      (by norm_num) (by norm_num)⟩
    rw [hlook]
    simp [selectGenerator, hnotpk, hfkb, hint]
  · rw [hlook]
    rcases hct with hc | ht
    · simp [selectGenerator, hnotpk, hfkb, hint, hc]
    · simp [selectGenerator, hnotpk, hfkb, hint, ht]
  · rw [hlook]
    simp [selectGenerator, hnotpk, hfkb, hint, hchar, htext]

/-- A table whose single column is a foreign-key member of type date
(neither int-like nor char/text-like). -/
def fkDateTable : TableStructure :=
  ⟨"t".data, [⟨"c".data, "date".data, false, []⟩], [],
    [⟨"fk".data, ["c".data], "other".data, ["id".data]⟩]⟩

/-- C6 counterexample: the foreign-key column `c` of declared type `date`
receives no binding at all from the default selection policy, refuting
"every column named in some foreign key receives a binding". -/
theorem foreign_key_binding_counterexample :
    lookupReg (setDefaultGenerators "mysql".data fkDateTable []) "c".data = none := by
  decide

/-- A table whose single column is an integer foreign-key member. -/
def fkIntTable : TableStructure :=
  ⟨"t".data, [⟨"c".data, "int".data, false, []⟩], [],
    [⟨"fk".data, ["c".data], "other".data, ["id".data]⟩]⟩

/-- Witness for C6 at a concrete integer foreign-key column. -/
theorem foreign_key_bindings_witness :
    lookupReg (setDefaultGenerators "mysql".data fkIntTable []) "c".data =
      some (.intGen 1 1000) ∧
    ∃ v r', intGenerateValue 1 1000 [41] = some (v, r') ∧ 1 ≤ v ∧ v ≤ 1000 := by
  have h := (foreign_key_bindings "mysql".data fkIntTable ⟨"c".data, "int".data, false, []⟩
    (by decide) (by decide)
    ⟨⟨"fk".data, ["c".data], "other".data, ["id".data]⟩, by decide, by decide⟩
    (by decide)).1 (by decide)
  exact ⟨h.1, h.2 [41]⟩

theorem getD_mem_of_lt {α : Type} (l : List α) (n : Nat) (d : α) (h : n < l.length) :
    l.getD n d ∈ l := by
  rw [List.getD_eq_getElem l d h]
  exact List.getElem_mem h

/-- C7: parsing the declared type enum('a','b','c') yields exactly the value
list ["a","b","c"] in that order; whenever the extraction step finds no
values, parseEnumValues falls back to the fixed two-value placeholder set;
and EnumGenerator over any non-empty value set only ever produces a member
of that set. -/
theorem enum_parse_and_generate :
    parseEnumValues "enum('a','b','c')".data = ["a".data, "b".data, "c".data] ∧
    (∀ dt : GoStr, extractEnumValues dt = [] → parseEnumValues dt = enumFallback) ∧
    (∀ (vs : List GoStr) (r : Rng), vs ≠ [] →
      ∃ v r', enumGeneratorValue vs r = some (v, r') ∧ v ∈ vs) := by
  refine ⟨by decide, fun dt h => by simp [parseEnumValues, h], fun vs r hvs => ?_⟩
  have hlen : (0 : Int) < (vs.length : Int) := by
    have : vs.length ≠ 0 := fun h => hvs (List.eq_nil_of_length_eq_zero h)
    omega
  have hk0 : 0 ≤ ((r.headD 0 : Nat) : Int) % (vs.length : Int) :=
    Int.emod_nonneg _ (by omega)
  have hklt : ((r.headD 0 : Nat) : Int) % (vs.length : Int) < (vs.length : Int) :=
    Int.emod_lt_of_pos _ hlen
  have hnat : (((r.headD 0 : Nat) : Int) % (vs.length : Int)).toNat < vs.length := by
    omega
  refine ⟨vs.getD (((r.headD 0 : Nat) : Int) % (vs.length : Int)).toNat [], r.tail, ?_, ?_⟩
  · simp only [enumGeneratorValue, randIntN, if_pos hlen]
  · exact getD_mem_of_lt vs _ [] hnat

/-- Witness for C7: the fallback fires on a parenless type string, and the
generator picks a member on a concrete two-value set. -/
theorem enum_parse_and_generate_witness :
    parseEnumValues "enum".data = enumFallback ∧
    ∃ v r', enumGeneratorValue ["a".data, "b".data] [1] = some (v, r') ∧
      v ∈ ["a".data, "b".data] :=
  ⟨enum_parse_and_generate.2.1 "enum".data (by decide),
    enum_parse_and_generate.2.2 ["a".data, "b".data] [1] (by decide)⟩

theorem digitChar_ne_q (d : Nat) : digitChar d ≠ '?' := by
  unfold digitChar
  split_ifs <;> decide

theorem natDecAux_not_q : ∀ (fuel n : Nat) (acc : GoStr), '?' ∉ acc →
    '?' ∉ natDecAux fuel n acc := by
  intro fuel
  induction fuel with
  | zero => intro n acc h; exact h
  | succ fuel ih =>
    intro n acc h
    cases n with
    | zero => exact h
    | succ m =>
      simp only [natDecAux]
      apply ih
      intro hmem
      rcases List.mem_cons.mp hmem with hc | hc
      · exact digitChar_ne_q _ hc.symm
      · exact h hc

theorem natDec_not_q (n : Nat) : '?' ∉ natDec n := by
  unfold natDec
  split
  · decide
  · exact natDecAux_not_q n n [] (by decide)

theorem replaceFirstQ_cons_q (t rep : GoStr) : replaceFirstQ ('?' :: t) rep = rep ++ t := by
  simp [replaceFirstQ]

theorem replaceFirstQ_append (a : GoStr) (b rep : GoStr) (h : '?' ∉ a) :
    replaceFirstQ (a ++ b) rep = a ++ replaceFirstQ b rep := by
  induction a with
  | nil => simp
  | cons c a' ih =>
    have hc : ¬c = '?' := fun hcq => h (by rw [← hcq]; exact List.mem_cons_self c a')
    simp only [List.cons_append, replaceFirstQ, if_neg hc, List.append_eq]
    rw [ih (fun hm => h (List.mem_cons_of_mem c hm))]

theorem mem_joinGo (sep : GoStr) (c : Char) :
    ∀ L : List GoStr, c ∈ joinGo sep L → c ∈ sep ∨ ∃ x ∈ L, c ∈ x := by
  intro L
  induction L with
  | nil => intro h; cases h
  | cons x xs ih =>
    cases xs with
    | nil => intro h; exact Or.inr ⟨x, List.mem_cons_self x [], h⟩
    | cons y ys =>
      intro h
      simp only [joinGo] at h
      rcases List.mem_append.mp h with h1 | h2
      · rcases List.mem_append.mp h1 with hx | hs
        · exact Or.inr ⟨x, List.mem_cons_self x (y :: ys), hx⟩
        · exact Or.inl hs
      · rcases ih h2 with hs | ⟨z, hz, hc⟩
        · exact Or.inl hs
        · exact Or.inr ⟨z, List.mem_cons_of_mem x hz, hc⟩

theorem pgRewriteLoop_spec :
    ∀ (k i : Nat) (a tail : GoStr), '?' ∉ a →
      pgRewriteLoop (a ++ joinGo ", ".data (List.replicate k "?".data) ++ tail) i k =
        a ++ joinGo ", ".data ((List.range' i k).map fun j => '$' :: natDec j) ++ tail := by
  intro k
  induction k with
  | zero =>
    intro i a tail ha
    simp [pgRewriteLoop, joinGo, List.range']
  | succ k ih =>
    intro i a tail ha
    cases k with
    | zero =>
      have h1 : a ++ joinGo ", ".data (List.replicate 1 "?".data) ++ tail =
          a ++ ('?' :: tail) := by
        simp [joinGo]
      simp only [pgRewriteLoop, h1]
      rw [replaceFirstQ_append a ('?' :: tail) _ ha, replaceFirstQ_cons_q]
      simp [List.range', joinGo, List.append_assoc]
    | succ m =>
      have hrep : List.replicate (m + 2) "?".data =
          "?".data :: "?".data :: List.replicate m "?".data := by
        simp [List.replicate]
      have h1 : a ++ joinGo ", ".data (List.replicate (m + 2) "?".data) ++ tail =
          a ++ ('?' :: (", ".data ++
            joinGo ", ".data (List.replicate (m + 1) "?".data) ++ tail)) := by
        rw [hrep]
        simp [joinGo, List.replicate, List.append_assoc]
      have hunfold : ∀ q : GoStr, pgRewriteLoop q i (m + 1 + 1) =
          pgRewriteLoop (replaceFirstQ q ('$' :: natDec i)) (i + 1) (m + 1) :=
        fun q => rfl
      rw [h1, hunfold]
      rw [replaceFirstQ_append a _ _ ha, replaceFirstQ_cons_q]
      have ha' : '?' ∉ a ++ ('$' :: natDec i) ++ ", ".data := by
        intro hmem
        rcases List.mem_append.mp hmem with hmem1 | hmem2
        · rcases List.mem_append.mp hmem1 with hma | hmd
          · exact ha hma
          · rcases List.mem_cons.mp hmd with hdl | hnd
            · exact absurd hdl (by decide)
            · exact natDec_not_q i hnd
        · exact absurd hmem2 (by decide)
      have hassoc : a ++ (('$' :: natDec i) ++ (", ".data ++
            joinGo ", ".data (List.replicate (m + 1) "?".data) ++ tail)) =
          (a ++ ('$' :: natDec i) ++ ", ".data) ++
            joinGo ", ".data (List.replicate (m + 1) "?".data) ++ tail := by
        simp [List.append_assoc]
      rw [hassoc, ih (i + 1) _ tail ha']
      have hrng : List.range' i (m + 2) = i :: List.range' (i + 1) (m + 1) := by
        simp [List.range']
      rw [hrng]
      have hmaprng : (List.range' (i + 1) (m + 1)).map (fun j => '$' :: natDec j) =
          ('$' :: natDec (i + 1)) ::
            (List.range' (i + 2) m).map (fun j => '$' :: natDec j) := by
        simp [List.range']
      simp only [List.map_cons, hmaprng, joinGo]
      simp [List.append_assoc]

/-- C5 amended: provided neither the table name nor any eligible column
name contains the character '?', the insert statement is exactly
`INSERT INTO <table> (<col1>, ..., <coln>) VALUES (...)` with placeholder
list `?, ?, ..., ?` (n times) for the mysql dialect and `$1, $2, ..., $n`
in ascending order for the postgres dialect, n the number of eligible
columns. (Without that proviso the postgres rewrite, which scans the whole
query text, is derailed by the earlier '?'.) -/
theorem insert_query_placeholders (ts : TableStructure) (reg : Registry)
    (hname : '?' ∉ ts.name)
    (hcols : ∀ c ∈ eligibleColumns reg ts.columns, '?' ∉ c.name) :
    buildInsertQuery "mysql".data ts reg =
      "INSERT INTO ".data ++ ts.name ++ " (".data ++
        joinGo ", ".data (insertColumnNames reg ts.columns) ++ ") VALUES (".data ++
        joinGo ", ".data
          (List.replicate (insertColumnNames reg ts.columns).length "?".data) ++
        ")".data ∧
    buildInsertQuery "postgres".data ts reg =
      "INSERT INTO ".data ++ ts.name ++ " (".data ++
        joinGo ", ".data (insertColumnNames reg ts.columns) ++ ") VALUES (".data ++
        joinGo ", ".data
          ((List.range' 1 (insertColumnNames reg ts.columns).length).map
            fun j => '$' :: natDec j) ++
        ")".data := by
  have hmapconst : (insertColumnNames reg ts.columns).map (fun _ => "?".data) =
      List.replicate (insertColumnNames reg ts.columns).length "?".data :=
    List.map_const' _ _
  have hA : '?' ∉ "INSERT INTO ".data ++ ts.name ++ " (".data ++
      joinGo ", ".data (insertColumnNames reg ts.columns) ++ ") VALUES (".data := by
    intro hmem
    rcases List.mem_append.mp hmem with h1 | h2
    · rcases List.mem_append.mp h1 with h3 | h4
      · rcases List.mem_append.mp h3 with h5 | h6
        · rcases List.mem_append.mp h5 with h7 | h8
          · exact absurd h7 (by decide)
          · exact hname h8
        · exact absurd h6 (by decide)
      · rcases mem_joinGo _ _ _ h4 with hs | ⟨x, hx, hcx⟩
        · exact absurd hs (by decide)
        · obtain ⟨c, hc, hcn⟩ := List.mem_map.mp hx
          exact hcols c hc (hcn ▸ hcx)
    · exact absurd h2 (by decide)
  constructor
  · simp only [buildInsertQuery, hmapconst]
    rw [if_neg (by decide)]
  · simp only [buildInsertQuery, hmapconst]
    rw [if_pos trivial, List.length_replicate]
    exact pgRewriteLoop_spec _ 1 _ ")".data hA

/-- A table with a single eligible column whose name contains '?'. -/
def qmarkTable : TableStructure :=
  ⟨"t".data, [⟨"a?".data, "varchar(10)".data, false, []⟩], [], []⟩

/-- C5 counterexample: with one eligible column named `a?`, the postgres
rewrite replaces the first "?" of the whole query text — the one inside the
column name — so the statement comes out as `INSERT INTO t (a$1) VALUES (?)`
and the placeholder list is not `$1`: the claim fails for this list of
eligible columns. -/
theorem postgres_placeholder_counterexample :
    buildInsertQuery "postgres".data qmarkTable
        (setDefaultGenerators "postgres".data qmarkTable []) =
      "INSERT INTO t (a$1) VALUES (?)".data ∧
    buildInsertQuery "postgres".data qmarkTable
        (setDefaultGenerators "postgres".data qmarkTable []) ≠
      "INSERT INTO t (a?) VALUES ($1)".data := by
  constructor <;> decide

/-- A table with three eligible columns a, b, c. -/
def abcTable : TableStructure :=
  ⟨"t".data,
    [⟨"a".data, "date".data, false, []⟩, ⟨"b".data, "date".data, false, []⟩,
      ⟨"c".data, "date".data, false, []⟩], [], []⟩

/-- Witness for C5: columns `[a,b,c]` give `?, ?, ?` for mysql and
`$1, $2, $3` for postgres. -/
theorem insert_query_placeholders_witness :
    buildInsertQuery "mysql".data abcTable
        (setDefaultGenerators "mysql".data abcTable []) =
      "INSERT INTO t (a, b, c) VALUES (?, ?, ?)".data ∧
    buildInsertQuery "postgres".data abcTable
        (setDefaultGenerators "postgres".data abcTable []) =
      "INSERT INTO t (a, b, c) VALUES ($1, $2, $3)".data := by
  have h1 := insert_query_placeholders abcTable
    (setDefaultGenerators "mysql".data abcTable []) (by decide) (by decide)
  have h2 := insert_query_placeholders abcTable
    (setDefaultGenerators "postgres".data abcTable []) (by decide) (by decide)
  exact ⟨h1.1.trans (by decide), h2.2.trans (by decide)⟩

theorem isSome_bind_of {α β : Type} {x : Option α} (f : α → Option β)
    (hx : x.isSome = true) (hf : ∀ a, (f a).isSome = true) :
    (x >>= f).isSome = true := by
  cases x with
  | none => simp at hx
  | some a => exact hf a

theorem randIntN_isSome (n : Int) (r : Rng) (h : 0 < n) :
    (randIntN n r).isSome = true := by
  simp [randIntN, h]

theorem randomStringGo_mem_alpha : ∀ (n : Nat) (r : Rng) (c : Char),
    c ∈ (randomStringGo n r).1 → c ∈ alphaChars := by
  intro n
  induction n with
  | zero => intro r c h; cases h
  | succ k ih =>
    intro r c h
    simp only [randomStringGo] at h
    rcases List.mem_cons.mp h with hc | hc
    · have hlt : r.headD 0 % 62 < alphaChars.length := by
        have h62 : r.headD 0 % 62 < 62 := Nat.mod_lt _ (by decide)
        have hlen : alphaChars.length = 62 := by decide
        omega
      rw [hc]
      exact getD_mem_of_lt _ _ _ hlt
    · exact ih r.tail c hc

theorem jsonArrayLoop_isSome (recur : Rng → Option (GoStr × Rng))
    (hrec : ∀ r, (recur r).isSome = true) (canRecur : Bool) :
    ∀ (k : Nat) (r : Rng), (jsonArrayLoop recur canRecur k r).isSome = true := by
  intro k
  induction k with
  | zero => intro r; rfl
  | succ k ih =>
    intro r
    simp only [jsonArrayLoop]
    cases canRecur with
    | false =>
      rw [if_neg (by decide)]
      apply isSome_bind_of
      · rfl
      · rintro ⟨elem, r1⟩
        dsimp only
        apply isSome_bind_of
        · exact ih _
        · rintro ⟨rest, r2⟩; rfl
    | true =>
      rw [if_pos rfl]
      apply isSome_bind_of
      · exact randIntN_isSome 2 r (by decide)
      · rintro ⟨coin, ra⟩
        dsimp only
        by_cases hcoin : coin = 0
        · rw [if_pos hcoin]
          apply isSome_bind_of
          · exact hrec ra
          · rintro ⟨elem, r1⟩
            dsimp only
            apply isSome_bind_of
            · exact ih _
            · rintro ⟨rest, r2⟩; rfl
        · rw [if_neg hcoin]
          apply isSome_bind_of
          · rfl
          · rintro ⟨elem, r1⟩
            dsimp only
            apply isSome_bind_of
            · exact ih _
            · rintro ⟨rest, r2⟩; rfl

theorem jsonFieldValue_isSome (recur : Rng → Option (GoStr × Rng))
    (hrec : ∀ r, (recur r).isSome = true) (canRecur : Bool)
    (cfg : JSONGeneratorCfg) (hai : 0 < cfg.arrayItems) :
    ∀ r : Rng, (jsonFieldValue recur canRecur cfg r).isSome = true := by
  intro r
  simp only [jsonFieldValue]
  apply isSome_bind_of
  · exact randIntN_isSome 4 r (by decide)
  · rintro ⟨choice, r0⟩
    by_cases h0 : choice = 0
    · simp only [if_pos h0]; rfl
    · simp only [if_neg h0]
      by_cases h1 : choice = 1
      · simp only [if_pos h1]
        apply isSome_bind_of
        · exact randIntN_isSome 1000 r0 (by decide)
        · rintro ⟨numv, r1⟩; rfl
      · simp only [if_neg h1]
        by_cases h2 : choice = 2
        · simp only [if_pos h2]
          cases canRecur with
          | true => rw [if_pos rfl]; exact hrec r0
          | false => rw [if_neg (by decide)]; rfl
        · simp only [if_neg h2]
          apply isSome_bind_of
          · exact randIntN_isSome cfg.arrayItems r0 hai
          · rintro ⟨ic, r1⟩
            apply isSome_bind_of
            · exact jsonArrayLoop_isSome recur hrec canRecur _ r1
            · rintro ⟨elems, r2⟩; rfl

theorem jsonFieldsLoop_isSome (recur : Rng → Option (GoStr × Rng))
    (hrec : ∀ r, (recur r).isSome = true) (canRecur : Bool)
    (cfg : JSONGeneratorCfg) (hai : 0 < cfg.arrayItems) :
    ∀ (k : Nat) (r : Rng), (jsonFieldsLoop recur canRecur cfg k r).isSome = true := by
  intro k
  induction k with
  | zero => intro r; rfl
  | succ k ih =>
    intro r
    simp only [jsonFieldsLoop]
    apply isSome_bind_of
    · exact jsonFieldValue_isSome recur hrec canRecur cfg hai _
    · rintro ⟨v, r1⟩
      apply isSome_bind_of
      · exact ih r1
      · rintro ⟨rest, r2⟩; rfl

theorem generateObjectB_isSome (cfg : JSONGeneratorCfg) (hf : 0 < cfg.fields)
    (hai : 0 < cfg.arrayItems) :
    ∀ (b : Nat) (r : Rng), (generateObjectB cfg b r).isSome = true := by
  intro b
  induction b with
  | zero => intro r; rfl
  | succ b ih =>
    intro r
    simp only [generateObjectB]
    apply isSome_bind_of
    · exact randIntN_isSome cfg.fields r hf
    · rintro ⟨fc, r0⟩
      apply isSome_bind_of
      · exact jsonFieldsLoop_isSome _ (fun rr => ih rr) _ cfg hai _ r0
      · rintro ⟨parts, r1⟩; rfl

/-- C9: at or beyond the configured maximum depth, generateObject emits only
a quoted leaf string — a value containing neither '{' nor '[' (no object,
no array) — and for every configuration with positive Fields and ArrayItems
the recursive construction terminates successfully at every depth (the
embedding is total by structural recursion on the remaining depth budget,
and no rand.IntN precondition can fail). -/
theorem json_generator_depth_leaf_and_total :
    (∀ (cfg : JSONGeneratorCfg) (depth : Int) (r : Rng), cfg.depth ≤ depth →
      generateObject cfg depth r =
        some ("\"leaf_value_".data ++ (randomStringGo 5 r).1 ++ "\"".data,
          (randomStringGo 5 r).2) ∧
      '{' ∉ "\"leaf_value_".data ++ (randomStringGo 5 r).1 ++ "\"".data ∧
      '[' ∉ "\"leaf_value_".data ++ (randomStringGo 5 r).1 ++ "\"".data) ∧
    (∀ (cfg : JSONGeneratorCfg) (depth : Int) (r : Rng),
      0 < cfg.fields → 0 < cfg.arrayItems →
      (generateObject cfg depth r).isSome = true) := by
  constructor
  · intro cfg depth r h
    have hb : (cfg.depth - depth).toNat = 0 := by omega
    refine ⟨?_, ?_, ?_⟩
    · unfold generateObject
      rw [hb]
      rfl
    · intro hmem
      rcases List.mem_append.mp hmem with h1 | h2
      · rcases List.mem_append.mp h1 with h3 | h4
        · exact absurd h3 (by decide)
        · exact absurd (randomStringGo_mem_alpha 5 r _ h4) (by decide)
      · exact absurd h2 (by decide)
    · intro hmem
      rcases List.mem_append.mp hmem with h1 | h2
      · rcases List.mem_append.mp h1 with h3 | h4
        · exact absurd h3 (by decide)
        · exact absurd (randomStringGo_mem_alpha 5 r _ h4) (by decide)
      · exact absurd h2 (by decide)
  · intro cfg depth r hf hai
    exact generateObjectB_isSome cfg hf hai _ r

/-- Witness for C9 with the policy's configuration (3, 2, 3): a call at
depth 5 ≥ 2 yields the leaf, and a call at depth 0 succeeds. -/
theorem json_generator_witness :
    (generateObject ⟨3, 2, 3, "mysql".data⟩ 5 [7] =
        some ("\"leaf_value_".data ++ (randomStringGo 5 [7]).1 ++ "\"".data,
          (randomStringGo 5 [7]).2) ∧
      '{' ∉ "\"leaf_value_".data ++ (randomStringGo 5 [7]).1 ++ "\"".data ∧
      '[' ∉ "\"leaf_value_".data ++ (randomStringGo 5 [7]).1 ++ "\"".data) ∧
    (generateObject ⟨3, 2, 3, "mysql".data⟩ 0 [0, 1, 2, 3]).isSome = true :=
  ⟨json_generator_depth_leaf_and_total.1 ⟨3, 2, 3, "mysql".data⟩ 5 [7] (by decide),
    json_generator_depth_leaf_and_total.2 ⟨3, 2, 3, "mysql".data⟩ 0 [0, 1, 2, 3]
      (by decide) (by decide)⟩
